import Mathlib

/-!
Verification of the MobileWheelsDatabase repository: two MkDocs plugin
variants (`mkdocs_mobilewheels/plugin.py` and `mkdocs_mobilewheelsdb/plugin.py`)
and the build-and-serve driver script (`db_runner.py`).

Directories are shallowly embedded as finite maps from file names to file
contents (`Dir := String → Option String`); the immediate regular files of a
source directory are a `List (String × String)` in iteration order.  External
effects (the HTTP download performed by `urllib.request.urlretrieve`, the
`urlparse(...).path` computation, subprocess exit statuses) enter as explicit
parameters so that every plugin callback is a pure function of its inputs.
-/

set_option autoImplicit false

namespace MobileWheels

/-- A destination directory: file name to file contents.  `none` means the
file does not exist.  (`mkdir(exist_ok=True)` is implicit: the map always
exists; creating the directory does not touch any file.) -/
def Dir := String → Option String

/-- The empty destination directory. -/
def emptyDir : Dir := fun _ => none

/-- Writing one file (`shutil.copy2` onto a destination path): the named
file gets the given contents, every other file is untouched. -/
def fsWrite (d : Dir) (name content : String) : Dir :=
  fun n => if n = name then some content else d n

/-- `for item in src.iterdir(): if item.is_file(): shutil.copy2(item, dest / item.name)`
over the list of immediate regular files, in iteration order. -/
def copyAll (l : List (String × String)) (d : Dir) : Dir :=
  l.foldl (fun acc p => fsWrite acc p.1 p.2) d

/-- The last entry of `l` whose name is `n` (the copy loop makes the last
occurrence win a name collision). -/
def findLast (n : String) : List (String × String) → Option String
  | [] => none
  | p :: rest =>
    match findLast n rest with
    | some c => some c
    | none => if p.1 = n then some p.2 else none

/-- Python string truthiness for an optional string: `None` and `''` are
falsy, any other string is truthy. -/
def pyTruthyStr : Option String → Bool
  | none => false
  | some s => !(s == "")

/-- Python `a or b` for an optional string `a` and string default `b`. -/
def pyOrStr (o : Option String) (dflt : String) : String :=
  if pyTruthyStr o then o.getD "" else dflt

/-- Python `s.endswith(suffix)`, on the character lists of the strings. -/
def strEndsWith (s suffix : String) : Bool :=
  suffix.data.isSuffixOf s.data

/-- `str.rstrip('/')`: drop every trailing occurrence of the character. -/
def strRstrip (s : String) (c : Char) : String :=
  ⟨(s.data.reverse.dropWhile (fun x => x == c)).reverse⟩

/-- Left-to-right replacement of every non-overlapping occurrence of `pat`
(nonempty in every use here) by `rep`, with fuel for termination; fuel
`s.length` always suffices because every step consumes at least one
character of `s`. -/
def replaceAllAux (pat rep : List Char) : Nat → List Char → List Char
  | 0, s => s
  | _ + 1, [] => []
  | fuel + 1, c :: rest =>
    if pat.isPrefixOf (c :: rest) then
      rep ++ replaceAllAux pat rep fuel ((c :: rest).drop pat.length)
    else
      c :: replaceAllAux pat rep fuel rest

/-- Python `s.replace(pat, rep)` for a nonempty `pat`: replace every
non-overlapping occurrence, scanning left to right. -/
def strReplace (s pat rep : String) : String :=
  ⟨replaceAllAux pat.data rep.data s.data.length s.data⟩

/-- A rendered page, as the injection hooks see it: `page.file.src_path`
and `page.title`. -/
structure Page where
  srcPath : String
  title : String

end MobileWheels

namespace mkdocs_mobilewheels

open MobileWheels

/-- The `config_scheme` of `mkdocs_mobilewheels/plugin.py`: resolved values
of the four options. -/
structure Config where
  database_url : Option String
  page_path : String
  page_title : String
  include_in_nav : Bool

/-- The defaults of the `config_scheme` in `mkdocs_mobilewheels/plugin.py`:
`database_url=None`, `page_path='package-search'`,
`page_title='Python Package Compatibility Search'`, `include_in_nav=True`. -/
def defaultConfig : Config :=
  { database_url := none
    page_path := "package-search"
    page_title := "Python Package Compatibility Search"
    include_in_nav := true }

/-- The template placeholder `{{DATABASE_URL}}` (braces written as escapes). -/
def placeholderDBURL : String := "\x7b\x7bDATABASE_URL\x7d\x7d"

/-- `search_html.replace('{{DATABASE_URL}}', db_url)`. -/
def substTemplate (tmpl dbUrl : String) : String :=
  strReplace tmpl placeholderDBURL dbUrl

/-- `MobileWheelsPlugin.on_page_content` of `mkdocs_mobilewheels/plugin.py`.
`tmpl` is the contents of `templates/search_page.html` when that file
exists (`none` when it does not).  When the page's source path equals
`page_path + ".md"` or the page title equals the configured `page_title`,
and the template file exists, the whole HTML is replaced by the substituted
template; otherwise the input HTML is returned. -/
def on_page_content (cfg : Config) (tmpl : Option String)
    (html : String) (page : Page) : String :=
  if page.srcPath = cfg.page_path ++ ".md" ∨ page.title = cfg.page_title then
    match tmpl with
    | some t => substTemplate t (pyOrStr cfg.database_url "/mobilewheels_assets")
    | none => html
  else html

/-- `MobileWheelsPlugin.on_files` of `mkdocs_mobilewheels/plugin.py`: copy
every immediate regular file of the plugin assets directory (when it
exists) into `docs_dir / mobilewheels_assets`. -/
def on_files (assets : Option (List (String × String))) (docsAssets : Dir) : Dir :=
  match assets with
  | none => docsAssets
  | some l => copyAll l docsAssets

/-- `MobileWheelsPlugin.on_post_build` of `mkdocs_mobilewheels/plugin.py`:
copy every immediate regular file of the plugin assets directory (when it
exists) into `site_dir / mobilewheels_assets`. -/
def on_post_build (assets : Option (List (String × String))) (siteAssets : Dir) : Dir :=
  match assets with
  | none => siteAssets
  | some l => copyAll l siteAssets

end mkdocs_mobilewheels

namespace mkdocs_mobilewheelsdb

open MobileWheels

/-- The `config_scheme` of `mkdocs_mobilewheelsdb/plugin.py`: resolved values
of the five options. -/
structure Config where
  database_url : Option String
  page_path : Option String
  page_title : String
  include_in_nav : Bool
  wasm_release : String

/-- The defaults of the `config_scheme` in `mkdocs_mobilewheelsdb/plugin.py`:
`database_url=None`, `page_path=None`,
`page_title='Python Package Compatibility Search'`, `include_in_nav=True`,
`wasm_release='latest'`. -/
def defaultConfig : Config :=
  { database_url := none
    page_path := none
    page_title := "Python Package Compatibility Search"
    include_in_nav := true
    wasm_release := "latest" }

/-- The injected snippet (the f-string `injection` of `on_page_content`),
as a function of the resolved `db_url`. -/
def injection (dbUrl : String) : String :=
  "\n<script>\n  window.MOBILEWHEELS_DB_URL = \x27" ++ dbUrl ++
    "\x27;\n</script>\n<script src=\"" ++ dbUrl ++
    "/package-search.js\"></script>\n"

/-- `MobileWheelsPlugin.on_page_content` of `mkdocs_mobilewheelsdb/plugin.py`.
`parsePath` stands for the external `urlparse(...).path`.  `siteUrl` is the
value stored under the MkDocs `site_url` key; MkDocs always sets that key,
to `None` when the site URL is not configured, so `config.get('site_url', '')`
returns the stored value itself (the `''` default never applies) and, on a
matching page with `siteUrl = none`, `None.rstrip('/')` raises an uncaught
`AttributeError` — modelled by the result `none`.  When `page_path` is
truthy and the page's source path equals `page_path + ".md"`, the injection
snippet is appended to the input HTML (given a string `site_url`);
otherwise the input HTML is returned unchanged. -/
def on_page_content (parsePath : String → String) (cfg : Config)
    (siteUrl : Option String) (html : String) (page : Page) : Option String :=
  match cfg.page_path with
  | none => some html
  | some pp =>
    if pp ≠ "" ∧ page.srcPath = pp ++ ".md" then
      match siteUrl with
      | none => none
      | some su =>
        let baseUrl := strRstrip su '/'
        let basePath := if baseUrl ≠ "" then strRstrip (parsePath baseUrl) '/' else ""
        let dbUrl :=
          if pyTruthyStr cfg.database_url then cfg.database_url.getD ""
          else if basePath ≠ "" then basePath ++ "/mobilewheels_assets"
          else "/mobilewheels_assets"
        some (html ++ injection dbUrl)
    else some html

/-- `MobileWheelsPlugin.on_files` of `mkdocs_mobilewheelsdb/plugin.py`
(identical to the other variant's `on_files`). -/
def on_files (assets : Option (List (String × String))) (docsAssets : Dir) : Dir :=
  match assets with
  | none => docsAssets
  | some l => copyAll l docsAssets

/-- The fixed destination file name `MobileWheelsDatabase.wasm`. -/
def wasmName : String := "MobileWheelsDatabase.wasm"

/-- Possible behaviours of `urllib.request.urlretrieve(wasm_url, wasm_path)`:
it either succeeds and leaves the remote content at the destination, or
raises before the destination file is created (e.g. the HTTP request itself
fails), or raises after a partial write (e.g. an interrupted transfer /
`ContentTooShortError`), leaving the partial bytes at the destination. -/
inductive DownloadOutcome where
  | success (content : String)
  | failNoWrite
  | failPartial (partialContent : String)

/-- The observable result of `on_post_build`: the destination
`mobilewheels_assets` directory, whether the download was attempted,
whether the bundled copy was used, and whether the final
`ERROR: No WASM file available` line was printed. -/
structure PostBuildResult where
  dest : Dir
  downloadAttempted : Bool
  usedBundled : Bool
  errorReported : Bool

/-- The copy loop of `on_post_build`:
`for item in assets.iterdir(): if item.is_file() and not item.name.endswith('.wasm'): shutil.copy2(...)`
(when the assets directory exists). -/
def copyNonWasm (assets : Option (List (String × String))) (siteAssets : Dir) : Dir :=
  match assets with
  | none => siteAssets
  | some l => copyAll (l.filter (fun p => !(strEndsWith p.1 ".wasm"))) siteAssets

/-- `bundled_wasm = self.assets_dir / 'MobileWheelsDatabase.wasm'`: the
contents of the bundled WASM file when it exists in the assets directory. -/
def bundledOf (assets : Option (List (String × String))) : Option String :=
  match assets with
  | none => none
  | some l => findLast wasmName l

/-- `MobileWheelsPlugin.on_post_build` of `mkdocs_mobilewheelsdb/plugin.py`:
copy every immediate regular file whose name does not end in `.wasm` (when
the assets directory exists); then, when no file exists at the destination
WASM path, attempt the release download, falling back to the bundled
`MobileWheelsDatabase.wasm` of the assets directory when the download
raises, and printing an error when neither is available. -/
def on_post_build (assets : Option (List (String × String)))
    (siteAssets : Dir) (outcome : DownloadOutcome) : PostBuildResult :=
  if ((copyNonWasm assets siteAssets) wasmName).isSome then
    { dest := copyNonWasm assets siteAssets, downloadAttempted := false
      usedBundled := false, errorReported := false }
  else
    match outcome with
    | .success c =>
      { dest := fsWrite (copyNonWasm assets siteAssets) wasmName c
        downloadAttempted := true, usedBundled := false, errorReported := false }
    | .failNoWrite =>
      match bundledOf assets with
      | some bc =>
        { dest := fsWrite (copyNonWasm assets siteAssets) wasmName bc
          downloadAttempted := true, usedBundled := true, errorReported := false }
      | none =>
        { dest := copyNonWasm assets siteAssets, downloadAttempted := true
          usedBundled := false, errorReported := true }
    | .failPartial pc =>
      match bundledOf assets with
      | some bc =>
        { dest := fsWrite (fsWrite (copyNonWasm assets siteAssets) wasmName pc) wasmName bc
          downloadAttempted := true, usedBundled := true, errorReported := false }
      | none =>
        { dest := fsWrite (copyNonWasm assets siteAssets) wasmName pc
          downloadAttempted := true, usedBundled := false, errorReported := true }

end mkdocs_mobilewheelsdb

namespace db_runner

/-- Exit behaviour of a `subprocess.run(..., check=True)` call: normal exit 0,
`CalledProcessError` on a non-zero exit, or a `KeyboardInterrupt` delivered
while it runs. -/
inductive ProcStatus where
  | ok
  | err
  | interrupted

/-- The external world `db_runner.py`'s `main` interacts with: the exit
status of the `swift build` subprocess, whether the built binary exists at
`.build/wasm32-unknown-wasip1/release/MobileWheelsDatabaseWasm.wasm`
afterwards, and the status of the `mkdocs serve` subprocess. -/
structure Env where
  buildStatus : ProcStatus
  wasmSrcExists : Bool
  serveStatus : ProcStatus

/-- The observable outcome of `main`: the process exit status, the lines
printed to standard error, and whether `mkdocs serve` was launched. -/
structure Outcome where
  exitCode : Nat
  stderrLines : List String
  serveLaunched : Bool

/-- `main` of `db_runner.py`.  The build subprocess always runs (the
`--skip-build` flag only suppresses one progress print).  A
`CalledProcessError` from the build is caught: a message goes to standard
error and the script exits with status 1.  On a successful build with the
binary missing at the fixed relative path, a message goes to standard error
and `sys.exit(1)` terminates the script (the `SystemExit` propagates past
the `except subprocess.CalledProcessError` handler).  Only after a
successful build with the binary present does `mkdocs serve` run; a
`KeyboardInterrupt` there is caught and the script ends normally, a
`CalledProcessError` is reported to standard error with exit status 1. -/
def main (env : Env) : Outcome :=
  match env.buildStatus with
  | .err =>
    { exitCode := 1, stderrLines := ["Build failed"], serveLaunched := false }
  | .interrupted =>
    { exitCode := 1, stderrLines := [], serveLaunched := false }
  | .ok =>
    if env.wasmSrcExists then
      match env.serveStatus with
      | .ok =>
        { exitCode := 0, stderrLines := [], serveLaunched := true }
      | .interrupted =>
        { exitCode := 0, stderrLines := [], serveLaunched := true }
      | .err =>
        { exitCode := 1, stderrLines := ["MkDocs failed"], serveLaunched := true }
    else
      { exitCode := 1, stderrLines := ["WASM binary not found!"], serveLaunched := false }

end db_runner

/-- Modelled from the spec: the spec describes three near-duplicate plugin
variants ("duplicated near-verbatim across three plugin variants"), but only
two are among the source files.  Of the page-path defaults it states "one
defaults to a non-empty string, two default to none"; the default of the
missing third variant's `page_path` option is therefore `none`. -/
def thirdVariant_page_path_default : Option String := none

namespace MobileWheels

theorem copyAll_nil (d : Dir) : copyAll [] d = d := rfl

theorem copyAll_cons (p : String × String) (l : List (String × String)) (d : Dir) :
    copyAll (p :: l) d = copyAll l (fsWrite d p.1 p.2) := rfl

/-- Pointwise characterisation of the copy loop: a name present in the
source list ends up with the contents of its last occurrence, regardless of
what the destination held before; a name absent from the source list is
untouched. -/
theorem copyAll_lookup (l : List (String × String)) (d : Dir) (n : String) :
    copyAll l d n =
      match findLast n l with
      | some c => some c
      | none => d n := by
  induction l generalizing d with
  | nil => rfl
  | cons p rest ih =>
    rw [copyAll_cons, ih]
    cases h : findLast n rest with
    | some c => simp [findLast, h]
    | none =>
      simp only [findLast, h, fsWrite]
      by_cases hp : p.1 = n
      · simp [hp]
      · have hn : ¬ n = p.1 := fun h' => hp h'.symm
        simp [hp, hn]

/-- A name absent from the source list is untouched by the copy loop. -/
theorem copyAll_not_found (l : List (String × String)) (d : Dir) (n : String)
    (h : findLast n l = none) : copyAll l d n = d n := by
  rw [copyAll_lookup, h]

/-- A name present in the source list ends with its last occurrence's
contents, whatever the destination held. -/
theorem copyAll_found (l : List (String × String)) (d : Dir) (n c : String)
    (h : findLast n l = some c) : copyAll l d n = some c := by
  rw [copyAll_lookup, h]

/-- The copy loop is idempotent pointwise. -/
theorem copyAll_idem (l : List (String × String)) (d : Dir) (n : String) :
    copyAll l (copyAll l d) n = copyAll l d n := by
  rw [copyAll_lookup, copyAll_lookup]
  cases h : findLast n l with
  | some c => rfl
  | none => rfl

/-- `findLast` on a filtered list only returns entries satisfying the
filter: a name that fails the predicate as an entry name is never found.
Specialised below to `.wasm`-suffixed names. -/
theorem findLast_filter_none (q : String × String → Bool)
    (l : List (String × String)) (n : String)
    (hn : ∀ c : String, q (n, c) = false) :
    findLast n (l.filter q) = none := by
  induction l with
  | nil => rfl
  | cons p rest ih =>
    by_cases hq : q p
    · rw [List.filter_cons_of_pos hq]
      simp only [findLast, ih]
      by_cases hp : p.1 = n
      · exfalso
        have : q (n, p.2) = true := by
          have : p = (n, p.2) := by
            cases p with
            | mk a b => simpa using hp
          rw [← this]; exact hq
        rw [hn p.2] at this
        exact Bool.false_ne_true this
      · simp [hp]
    · rw [List.filter_cons_of_neg (by simpa using hq)]
      exact ih

/-- Filtering by a predicate that keeps every entry named `n` does not
change what `findLast` finds for `n`. -/
theorem findLast_filter_keep (q : String × String → Bool)
    (l : List (String × String)) (n : String)
    (hn : ∀ c : String, q (n, c) = true) :
    findLast n (l.filter q) = findLast n l := by
  induction l with
  | nil => rfl
  | cons p rest ih =>
    by_cases hq : q p
    · rw [List.filter_cons_of_pos hq]
      simp only [findLast, ih]
    · rw [List.filter_cons_of_neg (by simpa using hq)]
      rw [ih]
      have hp : p.1 ≠ n := by
        intro hp
        apply hq
        have hpn : p = (n, p.2) := by
          cases p with
          | mk a b => simpa using hp
        rw [hpn]
        exact hn p.2
      simp only [findLast]
      cases findLast n rest with
      | some c => rfl
      | none => simp [hp]

/-- Writing the same name twice keeps only the second write. -/
theorem fsWrite_fsWrite_same (d : Dir) (k a b : String) :
    fsWrite (fsWrite d k a) k b = fsWrite d k b := by
  funext n
  by_cases h : n = k <;> simp [fsWrite, h]

/-- Appending a nonempty string changes a string. -/
theorem append_ne_self (a b : String) (hb : b ≠ "") : a ++ b ≠ a := by
  intro h
  have hd : a.data ++ b.data = a.data := by
    have := congrArg String.data h
    simpa using this
  have hlen : b.data = [] := by
    have := congrArg List.length hd
    simp at this
    exact List.length_eq_zero.mp this
  apply hb
  cases b with
  | mk l => cases hlen; rfl

end MobileWheels

namespace mkdocs_mobilewheelsdb

open MobileWheels

theorem wasmName_endsWith : strEndsWith wasmName ".wasm" = true := by decide

/-- The filtered copy loop of `on_post_build` never finds (hence never
writes) a `.wasm`-suffixed name. -/
theorem findLast_wasm_filtered (l : List (String × String)) (n : String)
    (hn : strEndsWith n ".wasm" = true) :
    findLast n (l.filter (fun p => !(strEndsWith p.1 ".wasm"))) = none := by
  apply findLast_filter_none
  intro c
  simp [hn]

/-- The copy loop of `on_post_build` leaves every `.wasm`-suffixed
destination file untouched. -/
theorem copyNonWasm_wasm (assets : Option (List (String × String)))
    (d : Dir) (n : String) (hn : strEndsWith n ".wasm" = true) :
    copyNonWasm assets d n = d n := by
  cases assets with
  | none => rfl
  | some l =>
    exact copyAll_not_found _ _ _ (findLast_wasm_filtered l n hn)

/-- The copy loop of `on_post_build` is idempotent pointwise. -/
theorem copyNonWasm_idem (assets : Option (List (String × String)))
    (d : Dir) (n : String) :
    copyNonWasm assets (copyNonWasm assets d) n = copyNonWasm assets d n := by
  cases assets with
  | none => rfl
  | some l => exact copyAll_idem _ _ _

/-- The copy loop commutes with a prior write at the destination WASM path
(it never touches `.wasm`-suffixed names). -/
theorem copyNonWasm_fsWrite_wasm (assets : Option (List (String × String)))
    (d : Dir) (c : String) (n : String) :
    copyNonWasm assets (fsWrite d wasmName c) n
      = fsWrite (copyNonWasm assets d) wasmName c n := by
  by_cases hn : n = wasmName
  · subst hn
    rw [copyNonWasm_wasm assets _ wasmName wasmName_endsWith]
    simp [fsWrite]
  · simp only [fsWrite, if_neg hn]
    cases assets with
    | none => simp [copyNonWasm, fsWrite, hn]
    | some l =>
      simp only [copyNonWasm, copyAll_lookup]
      cases h : findLast n (l.filter (fun p => !(strEndsWith p.1 ".wasm"))) with
      | some c' => rfl
      | none => simp [fsWrite, hn]

/-- When a file already sits at the destination WASM path after the copy
loop, `on_post_build` takes the skip branch: no download, no fallback, no
error, destination as the copy loop left it. -/
theorem on_post_build_wasm_present (assets : Option (List (String × String)))
    (d : Dir) (oc : DownloadOutcome) (w : String)
    (hw : copyNonWasm assets d wasmName = some w) :
    on_post_build assets d oc =
      { dest := copyNonWasm assets d, downloadAttempted := false
        usedBundled := false, errorReported := false } := by
  simp [on_post_build, hw]

/-- A second `on_post_build` run whose input already carries a write at the
destination WASM path reproduces that input pointwise. -/
theorem on_post_build_after_wasm_write (assets : Option (List (String × String)))
    (d : Dir) (oc : DownloadOutcome) (c n : String) :
    (on_post_build assets (fsWrite (copyNonWasm assets d) wasmName c) oc).dest n
      = fsWrite (copyNonWasm assets d) wasmName c n := by
  have hw : copyNonWasm assets (fsWrite (copyNonWasm assets d) wasmName c) wasmName
      = some c := by
    rw [copyNonWasm_wasm assets _ wasmName wasmName_endsWith]
    simp [fsWrite]
  rw [on_post_build_wasm_present assets _ oc c hw]
  show copyNonWasm assets (fsWrite (copyNonWasm assets d) wasmName c) n
      = fsWrite (copyNonWasm assets d) wasmName c n
  rw [copyNonWasm_fsWrite_wasm]
  by_cases hn : n = wasmName
  · simp [fsWrite, hn]
  · simp [fsWrite, hn, copyNonWasm_idem]

/-- At any name other than the destination WASM name, `on_post_build`
leaves exactly what its copy loop produced. -/
theorem on_post_build_dest_nonwasm (assets : Option (List (String × String)))
    (d : Dir) (oc : DownloadOutcome) (n : String) (hn : n ≠ wasmName) :
    (on_post_build assets d oc).dest n = copyNonWasm assets d n := by
  unfold on_post_build
  by_cases h : (copyNonWasm assets d wasmName).isSome
  · simp [h]
  · simp only [h, if_false, Bool.false_eq_true]
    cases oc with
    | success c => simp [fsWrite, hn]
    | failNoWrite => cases bundledOf assets <;> simp [fsWrite, hn]
    | failPartial pc => cases bundledOf assets <;> simp [fsWrite, hn]

/-- Running `on_post_build` a second time (same assets, same download
behaviour) leaves the destination directory unchanged, pointwise. -/
theorem on_post_build_idem (assets : Option (List (String × String)))
    (d : Dir) (oc : DownloadOutcome) (n : String) :
    (on_post_build assets (on_post_build assets d oc).dest oc).dest n
      = (on_post_build assets d oc).dest n := by
  by_cases h : (copyNonWasm assets d wasmName).isSome
  · obtain ⟨w, hw⟩ := Option.isSome_iff_exists.mp h
    rw [on_post_build_wasm_present assets d oc w hw]
    have hw2 : copyNonWasm assets (copyNonWasm assets d) wasmName = some w :=
      (copyNonWasm_idem assets d wasmName).trans hw
    rw [on_post_build_wasm_present assets _ oc w hw2]
    exact copyNonWasm_idem assets d n
  · have h0 : copyNonWasm assets d wasmName = none :=
      Option.not_isSome_iff_eq_none.mp h
    cases oc with
    | success c =>
      have h1 : on_post_build assets d (.success c) =
          { dest := fsWrite (copyNonWasm assets d) wasmName c
            downloadAttempted := true, usedBundled := false, errorReported := false } := by
        simp [on_post_build, h0]
      rw [h1]
      exact on_post_build_after_wasm_write assets d _ c n
    | failNoWrite =>
      cases hb : bundledOf assets with
      | some bc =>
        have h1 : on_post_build assets d .failNoWrite =
            { dest := fsWrite (copyNonWasm assets d) wasmName bc
              downloadAttempted := true, usedBundled := true, errorReported := false } := by
          simp [on_post_build, h0, hb]
        rw [h1]
        exact on_post_build_after_wasm_write assets d _ bc n
      | none =>
        have h1 : on_post_build assets d .failNoWrite =
            { dest := copyNonWasm assets d
              downloadAttempted := true, usedBundled := false, errorReported := true } := by
          simp [on_post_build, h0, hb]
        rw [h1]
        have h2 : copyNonWasm assets (copyNonWasm assets d) wasmName = none :=
          (copyNonWasm_idem assets d wasmName).trans h0
        have h3 : on_post_build assets (copyNonWasm assets d) .failNoWrite =
            { dest := copyNonWasm assets (copyNonWasm assets d)
              downloadAttempted := true, usedBundled := false, errorReported := true } := by
          simp [on_post_build, h2, hb]
        rw [h3]
        exact copyNonWasm_idem assets d n
    | failPartial pc =>
      cases hb : bundledOf assets with
      | some bc =>
        have h1 : on_post_build assets d (.failPartial pc) =
            { dest := fsWrite (fsWrite (copyNonWasm assets d) wasmName pc) wasmName bc
              downloadAttempted := true, usedBundled := true, errorReported := false } := by
          simp [on_post_build, h0, hb]
        rw [h1, fsWrite_fsWrite_same]
        exact on_post_build_after_wasm_write assets d _ bc n
      | none =>
        have h1 : on_post_build assets d (.failPartial pc) =
            { dest := fsWrite (copyNonWasm assets d) wasmName pc
              downloadAttempted := true, usedBundled := false, errorReported := true } := by
          simp [on_post_build, h0, hb]
        rw [h1]
        exact on_post_build_after_wasm_write assets d _ pc n

/-- The injected snippet is never the empty string. -/
theorem injection_ne_empty (d : String) : injection d ≠ "" := by
  intro h
  have hd := congrArg String.data h
  simp [injection] at hd

end mkdocs_mobilewheelsdb

open MobileWheels in
/-- Claim C2: in the artifact-fetching variant's `on_post_build`, when the
destination WASM file is absent, a successful download leaves the remote
content at the destination and the bundled copy is never consulted; the
bundled copy serves as the destination file only when the download raised,
and then the final destination content is exactly the bundled content —
never a combination of both sources. -/
theorem download_preferred_bundled_fallback
    (assets : Option (List (String × String))) (siteAssets : Dir)
    (outcome : mkdocs_mobilewheelsdb.DownloadOutcome)
    (h : siteAssets mkdocs_mobilewheelsdb.wasmName = none) :
    (∀ c, outcome = .success c →
      (mkdocs_mobilewheelsdb.on_post_build assets siteAssets outcome).usedBundled = false ∧
      (mkdocs_mobilewheelsdb.on_post_build assets siteAssets outcome).dest
          mkdocs_mobilewheelsdb.wasmName = some c) ∧
    ((mkdocs_mobilewheelsdb.on_post_build assets siteAssets outcome).usedBundled = true →
      (∀ c, outcome ≠ .success c) ∧
      ∃ bc, mkdocs_mobilewheelsdb.bundledOf assets = some bc ∧
        (mkdocs_mobilewheelsdb.on_post_build assets siteAssets outcome).dest
            mkdocs_mobilewheelsdb.wasmName = some bc) := by
  have h0 : mkdocs_mobilewheelsdb.copyNonWasm assets siteAssets
      mkdocs_mobilewheelsdb.wasmName = none :=
    (mkdocs_mobilewheelsdb.copyNonWasm_wasm assets siteAssets _
      mkdocs_mobilewheelsdb.wasmName_endsWith).trans h
  cases outcome with
  | success c =>
    constructor
    · intro c' hc'
      cases hc'
      simp [mkdocs_mobilewheelsdb.on_post_build, h0, fsWrite]
    · intro hb
      exfalso
      simp [mkdocs_mobilewheelsdb.on_post_build, h0] at hb
  | failNoWrite =>
    constructor
    · intro c' hc'
      cases hc'
    · intro hb
      refine ⟨fun c hc => (nomatch hc), ?_⟩
      cases hbn : mkdocs_mobilewheelsdb.bundledOf assets with
      | some bc =>
        exact ⟨bc, rfl, by simp [mkdocs_mobilewheelsdb.on_post_build, h0, hbn, fsWrite]⟩
      | none =>
        exfalso
        simp [mkdocs_mobilewheelsdb.on_post_build, h0, hbn] at hb
  | failPartial pc =>
    constructor
    · intro c' hc'
      cases hc'
    · intro hb
      refine ⟨fun c hc => (nomatch hc), ?_⟩
      cases hbn : mkdocs_mobilewheelsdb.bundledOf assets with
      | some bc =>
        exact ⟨bc, rfl, by simp [mkdocs_mobilewheelsdb.on_post_build, h0, hbn, fsWrite]⟩
      | none =>
        exfalso
        simp [mkdocs_mobilewheelsdb.on_post_build, h0, hbn] at hb

open MobileWheels in
/-- Witness for the download-then-fallback theorem at a concrete input. -/
theorem download_preferred_bundled_fallback_witness :
    (mkdocs_mobilewheelsdb.on_post_build none MobileWheels.emptyDir
        (.success "remote")).usedBundled = false ∧
    (mkdocs_mobilewheelsdb.on_post_build none MobileWheels.emptyDir
        (.success "remote")).dest mkdocs_mobilewheelsdb.wasmName = some "remote" :=
  (download_preferred_bundled_fallback none MobileWheels.emptyDir
    (.success "remote") rfl).1 "remote" rfl

/-- Claim C3 fails as stated: when the download raises after a partial
write (an interrupted transfer) and no bundled WASM exists, the error is
reported but the destination WASM path does exist afterwards, holding the
partial bytes. -/
theorem partial_download_left_behind :
    (mkdocs_mobilewheelsdb.on_post_build none MobileWheels.emptyDir
        (.failPartial "partial")).errorReported = true ∧
    (mkdocs_mobilewheelsdb.on_post_build none MobileWheels.emptyDir
        (.failPartial "partial")).dest mkdocs_mobilewheelsdb.wasmName
      = some "partial" := by
  constructor <;> decide

/-- Claim C3 amended: when the remote download fails and no bundled WASM
exists in the assets directory, an error is reported; and whenever the
failed download did not itself create a file at the destination WASM path,
that path does not exist after the operation. -/
theorem no_source_error_reported
    (assets : Option (List (String × String))) (siteAssets : MobileWheels.Dir)
    (outcome : mkdocs_mobilewheelsdb.DownloadOutcome)
    (h : siteAssets mkdocs_mobilewheelsdb.wasmName = none)
    (hb : mkdocs_mobilewheelsdb.bundledOf assets = none)
    (hf : ∀ c, outcome ≠ .success c) :
    (mkdocs_mobilewheelsdb.on_post_build assets siteAssets outcome).errorReported = true ∧
    (outcome = .failNoWrite →
      (mkdocs_mobilewheelsdb.on_post_build assets siteAssets outcome).dest
          mkdocs_mobilewheelsdb.wasmName = none) := by
  have h0 : mkdocs_mobilewheelsdb.copyNonWasm assets siteAssets
      mkdocs_mobilewheelsdb.wasmName = none :=
    (mkdocs_mobilewheelsdb.copyNonWasm_wasm assets siteAssets _
      mkdocs_mobilewheelsdb.wasmName_endsWith).trans h
  cases outcome with
  | success c => exact absurd rfl (hf c)
  | failNoWrite =>
    constructor
    · simp [mkdocs_mobilewheelsdb.on_post_build, h0, hb]
    · intro _
      simp [mkdocs_mobilewheelsdb.on_post_build, h0, hb]
  | failPartial pc =>
    constructor
    · simp [mkdocs_mobilewheelsdb.on_post_build, h0, hb]
    · intro hx
      cases hx

/-- Witness for the no-source error theorem at a concrete input. -/
theorem no_source_error_reported_witness :
    (mkdocs_mobilewheelsdb.on_post_build none MobileWheels.emptyDir
        .failNoWrite).errorReported = true ∧
    ((.failNoWrite : mkdocs_mobilewheelsdb.DownloadOutcome) = .failNoWrite →
      (mkdocs_mobilewheelsdb.on_post_build none MobileWheels.emptyDir
          .failNoWrite).dest mkdocs_mobilewheelsdb.wasmName = none) :=
  no_source_error_reported none MobileWheels.emptyDir .failNoWrite rfl rfl
    (fun c hc => by cases hc)

/-- Claim C4: the asset-copy steps are idempotent: running `on_files` or
`on_post_build` twice in succession (same assets, same download behaviour)
yields the same destination file set and contents as running it once, in
every variant. -/
theorem asset_copy_idempotent :
    (∀ assets d n, mkdocs_mobilewheels.on_files assets
        (mkdocs_mobilewheels.on_files assets d) n
      = mkdocs_mobilewheels.on_files assets d n) ∧
    (∀ assets d n, mkdocs_mobilewheels.on_post_build assets
        (mkdocs_mobilewheels.on_post_build assets d) n
      = mkdocs_mobilewheels.on_post_build assets d n) ∧
    (∀ assets d n, mkdocs_mobilewheelsdb.on_files assets
        (mkdocs_mobilewheelsdb.on_files assets d) n
      = mkdocs_mobilewheelsdb.on_files assets d n) ∧
    (∀ assets d oc n, (mkdocs_mobilewheelsdb.on_post_build assets
        (mkdocs_mobilewheelsdb.on_post_build assets d oc).dest oc).dest n
      = (mkdocs_mobilewheelsdb.on_post_build assets d oc).dest n) := by
  refine ⟨?_, ?_, ?_, ?_⟩
  · intro assets d n
    cases assets with
    | none => rfl
    | some l => exact MobileWheels.copyAll_idem l d n
  · intro assets d n
    cases assets with
    | none => rfl
    | some l => exact MobileWheels.copyAll_idem l d n
  · intro assets d n
    cases assets with
    | none => rfl
    | some l => exact MobileWheels.copyAll_idem l d n
  · intro assets d oc n
    exact mkdocs_mobilewheelsdb.on_post_build_idem assets d oc n

/-- Claim C5 fails as stated: the artifact-fetching variant's
`on_post_build` copy loop skips `.wasm`-suffixed files, so a file
`other.wasm` present among the immediate regular files of the assets
directory is never copied to the destination. -/
theorem wasm_asset_skipped :
    (mkdocs_mobilewheelsdb.on_post_build (some [("other.wasm", "x")])
        MobileWheels.emptyDir (.success "r")).dest "other.wasm" = none := by
  decide

/-- Claim C5 amended: `mkdocs_mobilewheels.on_files`,
`mkdocs_mobilewheels.on_post_build` and `mkdocs_mobilewheelsdb.on_files`
copy every immediate regular file of the assets directory into the
destination, unconditionally overwriting an existing destination file of
the same name; `mkdocs_mobilewheelsdb.on_post_build`'s copy loop does the
same for every file whose name does not end in `.wasm`, and leaves every
other `.wasm`-suffixed destination file (besides the fixed destination WASM
name) untouched. -/
theorem all_assets_copied_amended :
    (∀ l d n c, MobileWheels.findLast n l = some c →
      mkdocs_mobilewheels.on_files (some l) d n = some c) ∧
    (∀ l d n c, MobileWheels.findLast n l = some c →
      mkdocs_mobilewheels.on_post_build (some l) d n = some c) ∧
    (∀ l d n c, MobileWheels.findLast n l = some c →
      mkdocs_mobilewheelsdb.on_files (some l) d n = some c) ∧
    (∀ l d oc n c, MobileWheels.strEndsWith n ".wasm" = false →
      MobileWheels.findLast n l = some c →
      (mkdocs_mobilewheelsdb.on_post_build (some l) d oc).dest n = some c) ∧
    (∀ l d oc n, MobileWheels.strEndsWith n ".wasm" = true →
      n ≠ mkdocs_mobilewheelsdb.wasmName →
      (mkdocs_mobilewheelsdb.on_post_build (some l) d oc).dest n = d n) := by
  refine ⟨?_, ?_, ?_, ?_, ?_⟩
  · intro l d n c h
    exact MobileWheels.copyAll_found l d n c h
  · intro l d n c h
    exact MobileWheels.copyAll_found l d n c h
  · intro l d n c h
    exact MobileWheels.copyAll_found l d n c h
  · intro l d oc n c hn h
    have hnw : n ≠ mkdocs_mobilewheelsdb.wasmName := by
      intro he
      rw [he, mkdocs_mobilewheelsdb.wasmName_endsWith] at hn
      exact Bool.noConfusion hn
    rw [mkdocs_mobilewheelsdb.on_post_build_dest_nonwasm (some l) d oc n hnw]
    show MobileWheels.copyAll _ d n = some c
    apply MobileWheels.copyAll_found
    rw [MobileWheels.findLast_filter_keep _ l n (fun cc => by simp [hn])]
    exact h
  · intro l d oc n hn hnw
    rw [mkdocs_mobilewheelsdb.on_post_build_dest_nonwasm (some l) d oc n hnw]
    exact mkdocs_mobilewheelsdb.copyNonWasm_wasm (some l) d n hn

/-- Witness for the amended copy theorem at concrete inputs. -/
theorem all_assets_copied_amended_witness :
    mkdocs_mobilewheels.on_files (some [("a.js", "x")])
        MobileWheels.emptyDir "a.js" = some "x" ∧
    (mkdocs_mobilewheelsdb.on_post_build (some [("a.js", "x"), ("b.wasm", "y")])
        MobileWheels.emptyDir .failNoWrite).dest "a.js" = some "x" ∧
    (mkdocs_mobilewheelsdb.on_post_build (some [("a.js", "x"), ("b.wasm", "y")])
        MobileWheels.emptyDir .failNoWrite).dest "b.wasm" = none :=
  ⟨all_assets_copied_amended.1 _ _ _ _ (by decide),
   all_assets_copied_amended.2.2.2.1 _ _ _ _ _ (by decide) (by decide),
   (all_assets_copied_amended.2.2.2.2 _ _ _ _ (by decide) (by decide)).trans rfl⟩

/-- Claim C1 fails as stated for the `mkdocs_mobilewheels` variant: a page
whose source path differs from `page_path + ".md"` but whose title equals
the configured `page_title` still has its HTML replaced. -/
theorem title_match_also_injects :
    mkdocs_mobilewheels.on_page_content mkdocs_mobilewheels.defaultConfig
        (some "TEMPLATE") "HTML"
        ⟨"other.md", "Python Package Compatibility Search"⟩ ≠ "HTML" ∧
    ("other.md" : String) ≠
      mkdocs_mobilewheels.defaultConfig.page_path ++ ".md" := by
  constructor <;> decide

/-- Claim C1 amended: in the `mkdocs_mobilewheelsdb` variant the hook
deviates from returning the input HTML unchanged exactly when `page_path`
is configured to a truthy string and the page's source path equals
`page_path + ".md"`; on such a matching page it appends the injection
snippet when `site_url` is a string, and raises `AttributeError` (from
`None.rstrip('/')`) exactly when `site_url` is unset (`None`); every other
page's HTML is returned unchanged.  In the `mkdocs_mobilewheels` variant a
page matching neither the source-path test nor the configured `page_title`
is returned unchanged, and a page matching either test has its HTML
replaced by the substituted template whenever the template file exists. -/
theorem page_injection_condition_amended :
    (∀ (parsePath : String → String) (cfg : mkdocs_mobilewheelsdb.Config)
        (siteUrl : Option String) (html : String) (page : MobileWheels.Page),
      mkdocs_mobilewheelsdb.on_page_content parsePath cfg siteUrl html page
          ≠ some html ↔
        ∃ pp, cfg.page_path = some pp ∧ pp ≠ "" ∧ page.srcPath = pp ++ ".md") ∧
    (∀ (parsePath : String → String) (cfg : mkdocs_mobilewheelsdb.Config)
        (siteUrl : Option String) (html : String) (page : MobileWheels.Page),
      mkdocs_mobilewheelsdb.on_page_content parsePath cfg siteUrl html page
          = none ↔
        ((∃ pp, cfg.page_path = some pp ∧ pp ≠ "" ∧ page.srcPath = pp ++ ".md") ∧
          siteUrl = none)) ∧
    (∀ (cfg : mkdocs_mobilewheels.Config) (tmpl : Option String)
        (html : String) (page : MobileWheels.Page),
      page.srcPath ≠ cfg.page_path ++ ".md" → page.title ≠ cfg.page_title →
      mkdocs_mobilewheels.on_page_content cfg tmpl html page = html) ∧
    (∀ (cfg : mkdocs_mobilewheels.Config) (t : String)
        (html : String) (page : MobileWheels.Page),
      (page.srcPath = cfg.page_path ++ ".md" ∨ page.title = cfg.page_title) →
      mkdocs_mobilewheels.on_page_content cfg (some t) html page =
        mkdocs_mobilewheels.substTemplate t
          (MobileWheels.pyOrStr cfg.database_url "/mobilewheels_assets")) := by
  refine ⟨?_, ?_, ?_, ?_⟩
  · intro parsePath cfg siteUrl html page
    cases hpp : cfg.page_path with
    | none =>
      simp only [mkdocs_mobilewheelsdb.on_page_content, hpp]
      constructor
      · intro hne
        exact absurd rfl hne
      · rintro ⟨pp, hp, -, -⟩
        exact Option.noConfusion hp
    | some pp =>
      simp only [mkdocs_mobilewheelsdb.on_page_content, hpp]
      by_cases hc : pp ≠ "" ∧ page.srcPath = pp ++ ".md"
      · rw [if_pos hc]
        constructor
        · intro _
          exact ⟨pp, rfl, hc.1, hc.2⟩
        · intro _
          cases siteUrl with
          | none => exact fun h => Option.noConfusion h
          | some su =>
            intro h
            exact MobileWheels.append_ne_self html _
              (mkdocs_mobilewheelsdb.injection_ne_empty _) (Option.some.inj h)
      · rw [if_neg hc]
        constructor
        · intro hne
          exact absurd rfl hne
        · rintro ⟨pp', hp', hne', hsrc'⟩
          exfalso
          apply hc
          cases Option.some.inj hp'
          exact ⟨hne', hsrc'⟩
  · intro parsePath cfg siteUrl html page
    cases hpp : cfg.page_path with
    | none =>
      simp only [mkdocs_mobilewheelsdb.on_page_content, hpp]
      constructor
      · intro h
        exact Option.noConfusion h
      · rintro ⟨⟨pp, hp, -, -⟩, -⟩
        exact Option.noConfusion hp
    | some pp =>
      simp only [mkdocs_mobilewheelsdb.on_page_content, hpp]
      by_cases hc : pp ≠ "" ∧ page.srcPath = pp ++ ".md"
      · rw [if_pos hc]
        cases siteUrl with
        | none =>
          constructor
          · intro _
            exact ⟨⟨pp, rfl, hc.1, hc.2⟩, rfl⟩
          · intro _
            rfl
        | some su =>
          constructor
          · intro h
            exact Option.noConfusion h
          · rintro ⟨-, hsu⟩
            exact Option.noConfusion hsu
      · rw [if_neg hc]
        constructor
        · intro h
          exact Option.noConfusion h
        · rintro ⟨⟨pp', hp', hne', hsrc'⟩, -⟩
          exfalso
          apply hc
          cases Option.some.inj hp'
          exact ⟨hne', hsrc'⟩
  · intro cfg tmpl html page h1 h2
    simp [mkdocs_mobilewheels.on_page_content, h1, h2]
  · intro cfg t html page hcond
    simp [mkdocs_mobilewheels.on_page_content, if_pos hcond]

/-- Witness for the amended injection-condition theorem at concrete inputs:
a matching page of the db variant with a set site URL is altered, the same
page with an unset site URL hits the exception path, and a non-matching
page of the other variant is returned unchanged. -/
theorem page_injection_condition_amended_witness :
    mkdocs_mobilewheelsdb.on_page_content (fun s => s)
        ⟨none, some "p", "t", true, "latest"⟩ (some "https://h/b") "HTML"
        ⟨"p.md", "x"⟩ ≠ some "HTML" ∧
    mkdocs_mobilewheelsdb.on_page_content (fun s => s)
        ⟨none, some "p", "t", true, "latest"⟩ none "HTML" ⟨"p.md", "x"⟩ = none ∧
    mkdocs_mobilewheels.on_page_content mkdocs_mobilewheels.defaultConfig
        (some "TEMPLATE") "HTML" ⟨"a.md", "b"⟩ = "HTML" :=
  ⟨(page_injection_condition_amended.1 (fun s => s)
      ⟨none, some "p", "t", true, "latest"⟩ (some "https://h/b") "HTML"
      ⟨"p.md", "x"⟩).mpr ⟨"p", rfl, by decide, by decide⟩,
   (page_injection_condition_amended.2.1 (fun s => s)
      ⟨none, some "p", "t", true, "latest"⟩ none "HTML" ⟨"p.md", "x"⟩).mpr
      ⟨⟨"p", rfl, by decide, by decide⟩, rfl⟩,
   page_injection_condition_amended.2.2.1 mkdocs_mobilewheels.defaultConfig
      (some "TEMPLATE") "HTML" ⟨"a.md", "b"⟩ (by decide) (by decide)⟩

/-- Claim C6: the two variants implement different injection strategies.
For a matching page with an existing template, the `mkdocs_mobilewheels`
output does not depend on the input HTML; every value the
`mkdocs_mobilewheelsdb` hook returns (rather than raising) extends the
input HTML (the input is a prefix of the result); and on a common concrete
matching page with a set site URL the two hooks produce different strings,
so they are not extensionally equal. -/
theorem injection_strategies_differ :
    (∀ (cfg : mkdocs_mobilewheels.Config) (t : String)
        (page : MobileWheels.Page) (h1 h2 : String),
      (page.srcPath = cfg.page_path ++ ".md" ∨ page.title = cfg.page_title) →
      mkdocs_mobilewheels.on_page_content cfg (some t) h1 page =
        mkdocs_mobilewheels.on_page_content cfg (some t) h2 page) ∧
    (∀ (parsePath : String → String) (cfg : mkdocs_mobilewheelsdb.Config)
        (siteUrl : Option String) (html : String) (page : MobileWheels.Page)
        (out : String),
      mkdocs_mobilewheelsdb.on_page_content parsePath cfg siteUrl html page
          = some out →
      ∃ s, out = html ++ s) ∧
    mkdocs_mobilewheelsdb.on_page_content (fun s => s)
        ⟨some "u", some "p", "t", true, "latest"⟩ (some "") "HTML"
        ⟨"p.md", "x"⟩ ≠
      some (mkdocs_mobilewheels.on_page_content ⟨none, "p", "t", true⟩
        (some "TEMPLATE") "HTML" ⟨"p.md", "x"⟩) := by
  refine ⟨?_, ?_, ?_⟩
  · intro cfg t page h1 h2 hcond
    simp [mkdocs_mobilewheels.on_page_content, if_pos hcond]
  · intro parsePath cfg siteUrl html page out h
    cases hpp : cfg.page_path with
    | none =>
      simp only [mkdocs_mobilewheelsdb.on_page_content, hpp,
        Option.some.injEq] at h
      refine ⟨"", ?_⟩
      rw [← h]
      simp
    | some pp =>
      simp only [mkdocs_mobilewheelsdb.on_page_content, hpp] at h
      by_cases hc : pp ≠ "" ∧ page.srcPath = pp ++ ".md"
      · rw [if_pos hc] at h
        cases siteUrl with
        | none => exact Option.noConfusion h
        | some su => exact ⟨_, (Option.some.inj h).symm⟩
      · rw [if_neg hc] at h
        refine ⟨"", ?_⟩
        rw [← Option.some.inj h]
        simp
  · decide

/-- Witness for the strategy theorem: the replacement variant's output on a
matching page is the same for two different input HTML strings. -/
theorem injection_strategies_differ_witness :
    mkdocs_mobilewheels.on_page_content ⟨none, "p", "t", true⟩ (some "TEMPLATE")
        "H1" ⟨"p.md", "x"⟩ =
      mkdocs_mobilewheels.on_page_content ⟨none, "p", "t", true⟩ (some "TEMPLATE")
        "H2" ⟨"p.md", "x"⟩ :=
  injection_strategies_differ.1 ⟨none, "p", "t", true⟩ "TEMPLATE"
    ⟨"p.md", "x"⟩ "H1" "H2" (Or.inl (by decide))

/-- Claim C7: in the driver script, a build-subprocess failure, or a
missing binary at the fixed build-output path after a successful build, is
reported on standard error and terminates the script with a non-zero exit
status, and the documentation server is not launched from either failing
branch. -/
theorem driver_failure_handling (env : db_runner.Env)
    (h : env.buildStatus = .err ∨
      (env.buildStatus = .ok ∧ env.wasmSrcExists = false)) :
    (db_runner.main env).exitCode ≠ 0 ∧
    (db_runner.main env).stderrLines ≠ [] ∧
    (db_runner.main env).serveLaunched = false := by
  cases env with
  | mk b w s =>
    rcases h with h | ⟨h1, h2⟩
    · cases h
      simp [db_runner.main]
    · cases h1
      cases h2
      simp [db_runner.main]

/-- Witness for the driver failure theorem at a concrete environment. -/
theorem driver_failure_handling_witness :
    (db_runner.main ⟨.err, true, .ok⟩).exitCode ≠ 0 ∧
    (db_runner.main ⟨.err, true, .ok⟩).stderrLines ≠ [] ∧
    (db_runner.main ⟨.err, true, .ok⟩).serveLaunched = false :=
  driver_failure_handling ⟨.err, true, .ok⟩ (Or.inl rfl)

/-- Claim C8: the page-path option has inconsistent defaults across the
near-duplicate plugin variants: `mkdocs_mobilewheels` defaults `page_path`
to the non-empty string `'package-search'`, while `mkdocs_mobilewheelsdb`
and the spec-described third variant default it to `None`. -/
theorem page_path_default_mismatch :
    mkdocs_mobilewheels.defaultConfig.page_path = "package-search" ∧
    mkdocs_mobilewheels.defaultConfig.page_path ≠ "" ∧
    mkdocs_mobilewheelsdb.defaultConfig.page_path = none ∧
    thirdVariant_page_path_default = none :=
  ⟨rfl, by decide, rfl, rfl⟩

/-- Claim C9: in the artifact-fetching variant under the default
configuration (`page_path=None`), `on_page_content` returns the input HTML
unchanged (raising nothing) for every page, site URL and URL-parsing
behaviour: the guard short-circuits before `site_url` is touched. -/
theorem default_config_never_injects
    (parsePath : String → String) (siteUrl : Option String)
    (html : String) (page : MobileWheels.Page) :
    mkdocs_mobilewheelsdb.on_page_content parsePath
      mkdocs_mobilewheelsdb.defaultConfig siteUrl html page = some html := rfl

/-- Claim C10: in the artifact-fetching variant's `on_post_build`, when a
file already exists at the destination WASM path, no download and no
fallback copy is attempted, and every `.wasm`-suffixed destination file
(the destination WASM file included) keeps its previous contents. -/
theorem existing_wasm_untouched
    (assets : Option (List (String × String))) (siteAssets : MobileWheels.Dir)
    (outcome : mkdocs_mobilewheelsdb.DownloadOutcome) (n w : String)
    (hw : siteAssets mkdocs_mobilewheelsdb.wasmName = some w)
    (hn : MobileWheels.strEndsWith n ".wasm" = true) :
    (mkdocs_mobilewheelsdb.on_post_build assets siteAssets outcome).downloadAttempted
        = false ∧
    (mkdocs_mobilewheelsdb.on_post_build assets siteAssets outcome).usedBundled
        = false ∧
    (mkdocs_mobilewheelsdb.on_post_build assets siteAssets outcome).dest n
        = siteAssets n := by
  have hcw : mkdocs_mobilewheelsdb.copyNonWasm assets siteAssets
      mkdocs_mobilewheelsdb.wasmName = some w :=
    (mkdocs_mobilewheelsdb.copyNonWasm_wasm assets siteAssets _
      mkdocs_mobilewheelsdb.wasmName_endsWith).trans hw
  rw [mkdocs_mobilewheelsdb.on_post_build_wasm_present assets siteAssets outcome w hcw]
  exact ⟨rfl, rfl, mkdocs_mobilewheelsdb.copyNonWasm_wasm assets siteAssets n hn⟩

/-- Witness for the frame theorem at concrete inputs: with the destination
WASM file already present, the callback neither downloads nor falls back
and leaves the file as it was. -/
theorem existing_wasm_untouched_witness :
    (mkdocs_mobilewheelsdb.on_post_build (some [("a.js", "x")])
        (MobileWheels.fsWrite MobileWheels.emptyDir
          mkdocs_mobilewheelsdb.wasmName "w") (.success "r")).downloadAttempted
        = false ∧
    (mkdocs_mobilewheelsdb.on_post_build (some [("a.js", "x")])
        (MobileWheels.fsWrite MobileWheels.emptyDir
          mkdocs_mobilewheelsdb.wasmName "w") (.success "r")).usedBundled
        = false ∧
    (mkdocs_mobilewheelsdb.on_post_build (some [("a.js", "x")])
        (MobileWheels.fsWrite MobileWheels.emptyDir
          mkdocs_mobilewheelsdb.wasmName "w") (.success "r")).dest
          mkdocs_mobilewheelsdb.wasmName
      = MobileWheels.fsWrite MobileWheels.emptyDir
          mkdocs_mobilewheelsdb.wasmName "w" mkdocs_mobilewheelsdb.wasmName :=
  existing_wasm_untouched (some [("a.js", "x")])
    (MobileWheels.fsWrite MobileWheels.emptyDir mkdocs_mobilewheelsdb.wasmName "w")
    (.success "r") mkdocs_mobilewheelsdb.wasmName "w" (by decide) (by decide)
